/-
  Verification of the signal-detection core of the jhingalala notification
  repository: RSI/support detection (rsiSupport.js), trendline scanning
  (rsiSupport.js, TrendlineScanner class), institutional-activity scoring
  (meroShareProxy.js, InstitutionalActivity class), the weekly heatmap
  aggregator (weeklyHeatmap.js) and the state manager (StateManager class).

  Numbers are modelled as rationals (the idealized arithmetic of the
  JavaScript source), timestamps as integers (milliseconds), and the
  persisted JSON state as association lists with JavaScript object
  semantics (insert-or-replace on assignment, first-match lookup).
-/
import Mathlib

/-! ## Data model

`DailyRecord` mirrors one row of `organized_nepse_data.json` after the
loader has grouped and chronologically sorted it (the detectors receive the
per-symbol series already sorted; sorting and the allow-list filter are
I/O-side and outside the claims). -/

structure DailyRecord where
  time : ℤ
  openPrice : ℚ
  high : ℚ
  low : ℚ
  close : ℚ
  volume : ℚ
  deriving DecidableEq

instance : Inhabited DailyRecord := ⟨⟨0, 0, 0, 0, 0, 0⟩⟩

/-! ## Association lists with JavaScript object semantics -/

/-- First-match lookup, like reading `obj[key]` (built maps never hold
duplicate keys, so first match is the only match). -/
def lookupS {α : Type} : List (String × α) → String → Option α
  | [], _ => none
  | (k, v) :: rest, key => if k = key then some v else lookupS rest key

/-- `obj[key] = value`: replace the entry if the key is present, else
append it (JavaScript objects keep first-insertion key order). -/
def upsert {α : Type} (m : List (String × α)) (k : String) (v : α) : List (String × α) :=
  if m.any (fun p => p.1 = k) then
    m.map (fun p => if p.1 = k then (k, v) else p)
  else
    m ++ [(k, v)]

/-- Substring test, mirroring JavaScript `String.prototype.includes`. -/
def hasInfixChars (sub : List Char) : List Char → Bool
  | [] => sub.isEmpty
  | c :: rest => sub.isPrefixOf (c :: rest) || hasInfixChars sub rest

def containsSub (hay sub : String) : Bool :=
  hasInfixChars sub.toList hay.toList

def exceptIsOk {ε α : Type} : Except ε α → Bool
  | .ok _ => true
  | .error _ => false

/-! ## RSI calculation (rsiSupport.js, `RsiSupport.calculateRSI`) -/

/-- `data[i].close - data[i-1].close` (indices are always in range at the
call sites guarded by the source's length checks). -/
def closesDiff (data : List DailyRecord) (i : ℕ) : ℚ :=
  (data.getD i default).close - (data.getD (i - 1) default).close

/-- Initial summed gain over the first `period` differences
(`difference >= 0` contributes the difference). -/
def initGains (data : List DailyRecord) (period : ℕ) : ℚ :=
  ((List.range period).map (fun k =>
    let d := closesDiff data (k + 1)
    if 0 ≤ d then d else 0)).sum

/-- Initial summed loss over the first `period` differences
(`difference < 0` contributes its absolute value). -/
def initLosses (data : List DailyRecord) (period : ℕ) : ℚ :=
  ((List.range period).map (fun k =>
    let d := closesDiff data (k + 1)
    if 0 ≤ d then 0 else -d)).sum

/-- One iteration of the Wilder smoothing loop: state is
`(avgGain, avgLoss, rsiValues)`, input is the close-to-close difference. -/
def rsiStep (period : ℕ) (st : ℚ × ℚ × List ℚ) (d : ℚ) : ℚ × ℚ × List ℚ :=
  let avgGain := st.1
  let avgLoss := st.2.1
  let currentGain := if 0 ≤ d then d else 0
  let currentLoss := if 0 ≤ d then 0 else -d
  let avgGain' := (avgGain * ((period : ℚ) - 1) + currentGain) / (period : ℚ)
  let avgLoss' := (avgLoss * ((period : ℚ) - 1) + currentLoss) / (period : ℚ)
  let rs := if 0 < avgLoss' then avgGain' / avgLoss' else 100
  let rsi := 100 - 100 / (1 + rs)
  (avgGain', avgLoss', st.2.2 ++ [rsi])

/-- The differences consumed by the smoothing loop
(`i` from `period + 1` to `data.length - 1`). -/
def rsiDiffs (data : List DailyRecord) (period : ℕ) : List ℚ :=
  (List.range (data.length - (period + 1))).map (fun k => closesDiff data (period + 1 + k))

/-- `RsiSupport.calculateRSI` from rsiSupport.js: initial average gain/loss
over the first `period` differences, then Wilder-smoothed RSI values for
each remaining record. -/
def calculateRSI (data : List DailyRecord) (period : ℕ) : List ℚ :=
  let avgGain := initGains data period / (period : ℚ)
  let avgLoss := initLosses data period / (period : ℚ)
  ((rsiDiffs data period).foldl (rsiStep period) (avgGain, avgLoss, [])).2.2

/-- The detector's current RSI (rsiSupport.js line 84):
`rsiValues.length > 0 ? rsiValues[rsiValues.length - 1] : 50`. -/
def detectorCurrentRSI (data : List DailyRecord) : ℚ :=
  let rsiValues := calculateRSI data 14
  if 0 < rsiValues.length then rsiValues.getD (rsiValues.length - 1) 0 else 50

/-- Strictly increasing close prices, record to record. -/
def StrictlyIncreasingCloses (data : List DailyRecord) : Prop :=
  ∀ i < data.length - 1, (data.getD i default).close < (data.getD (i + 1) default).close

/-- Strictly decreasing close prices, record to record. -/
def StrictlyDecreasingCloses (data : List DailyRecord) : Prop :=
  ∀ i < data.length - 1, (data.getD (i + 1) default).close < (data.getD i default).close

/-- A 16-record series with strictly increasing closes (1, 2, …, 16). -/
def c2IncData : List DailyRecord :=
  [⟨0, 0, 0, 0, 1, 10⟩, ⟨1, 0, 0, 0, 2, 10⟩, ⟨2, 0, 0, 0, 3, 10⟩, ⟨3, 0, 0, 0, 4, 10⟩,
   ⟨4, 0, 0, 0, 5, 10⟩, ⟨5, 0, 0, 0, 6, 10⟩, ⟨6, 0, 0, 0, 7, 10⟩, ⟨7, 0, 0, 0, 8, 10⟩,
   ⟨8, 0, 0, 0, 9, 10⟩, ⟨9, 0, 0, 0, 10, 10⟩, ⟨10, 0, 0, 0, 11, 10⟩, ⟨11, 0, 0, 0, 12, 10⟩,
   ⟨12, 0, 0, 0, 13, 10⟩, ⟨13, 0, 0, 0, 14, 10⟩, ⟨14, 0, 0, 0, 15, 10⟩, ⟨15, 0, 0, 0, 16, 10⟩]

/-- A 16-record series with strictly decreasing closes (16, 15, …, 1). -/
def c2DecData : List DailyRecord :=
  [⟨0, 0, 0, 0, 16, 10⟩, ⟨1, 0, 0, 0, 15, 10⟩, ⟨2, 0, 0, 0, 14, 10⟩, ⟨3, 0, 0, 0, 13, 10⟩,
   ⟨4, 0, 0, 0, 12, 10⟩, ⟨5, 0, 0, 0, 11, 10⟩, ⟨6, 0, 0, 0, 10, 10⟩, ⟨7, 0, 0, 0, 9, 10⟩,
   ⟨8, 0, 0, 0, 8, 10⟩, ⟨9, 0, 0, 0, 7, 10⟩, ⟨10, 0, 0, 0, 6, 10⟩, ⟨11, 0, 0, 0, 5, 10⟩,
   ⟨12, 0, 0, 0, 4, 10⟩, ⟨13, 0, 0, 0, 3, 10⟩, ⟨14, 0, 0, 0, 2, 10⟩, ⟨15, 0, 0, 0, 1, 10⟩]

/-! ## RSI lemmas -/

theorem foldl_rsiStep_length (period : ℕ) (ds : List ℚ) :
    ∀ st : ℚ × ℚ × List ℚ,
      ((ds.foldl (rsiStep period) st).2.2).length = st.2.2.length + ds.length := by
  induction ds with
  | nil => intro st; simp
  | cons d ds ih =>
    intro st
    rw [List.foldl_cons, ih]
    simp [rsiStep]
    omega

theorem rsiStep_pos (g acc : _) (d : ℚ) (hd : 0 < d) :
    rsiStep 14 (g, 0, acc) d = ((g * 13 + d) / 14, 0, acc ++ [10000 / 101]) := by
  simp only [rsiStep, hd.le, if_true, Nat.cast_ofNat]
  norm_num

theorem foldl_rsiStep_allPos :
    ∀ (ds : List ℚ), (∀ d ∈ ds, 0 < d) → ∀ (g : ℚ) (acc : List ℚ),
      (ds.foldl (rsiStep 14) (g, 0, acc)).2.1 = 0 ∧
      (ds.foldl (rsiStep 14) (g, 0, acc)).2.2
        = acc ++ List.replicate ds.length (10000 / 101) := by
  intro ds
  induction ds with
  | nil => intro _ g acc; simp
  | cons d ds ih =>
    intro h g acc
    have hd : 0 < d := h d (List.mem_cons_self d ds)
    rw [List.foldl_cons, rsiStep_pos g acc d hd]
    have hrest := ih (fun x hx => h x (List.mem_cons_of_mem _ hx)) ((g * 13 + d) / 14)
      (acc ++ [10000 / 101])
    refine ⟨hrest.1, ?_⟩
    rw [hrest.2]
    simp [List.replicate_succ]

theorem rsiStep_neg (l acc : _) (d : ℚ) (hl : 0 < l) (hd : d < 0) :
    rsiStep 14 (0, l, acc) d = (0, (l * 13 + -d) / 14, acc ++ [0]) := by
  have hnd : ¬ (0 ≤ d) := not_le.mpr hd
  have hlt : d < l * 13 := by nlinarith
  simp only [rsiStep, hnd, if_false, Nat.cast_ofNat]
  norm_num
  rw [if_pos hlt]
  norm_num

theorem foldl_rsiStep_allNeg :
    ∀ (ds : List ℚ), (∀ d ∈ ds, d < 0) → ∀ (l : ℚ), 0 < l → ∀ (acc : List ℚ),
      (ds.foldl (rsiStep 14) (0, l, acc)).2.2
        = acc ++ List.replicate ds.length 0 := by
  intro ds
  induction ds with
  | nil => intro _ l _ acc; simp
  | cons d ds ih =>
    intro h l hl acc
    have hd : d < 0 := h d (List.mem_cons_self d ds)
    rw [List.foldl_cons, rsiStep_neg l acc d hl hd]
    have hl' : (0 : ℚ) < (l * 13 + -d) / 14 := by
      apply div_pos _ (by norm_num)
      nlinarith
    rw [ih (fun x hx => h x (List.mem_cons_of_mem _ hx)) _ hl' (acc ++ [0])]
    simp [List.replicate_succ]

theorem rsiDiffs_pos_of_increasing (data : List DailyRecord)
    (hinc : StrictlyIncreasingCloses data) :
    ∀ d ∈ rsiDiffs data 14, 0 < d := by
  intro d hd
  simp only [rsiDiffs, List.mem_map, List.mem_range] at hd
  obtain ⟨k, hk, rfl⟩ := hd
  have h := hinc (14 + k) (by omega)
  simp only [closesDiff]
  have e1 : 14 + 1 + k - 1 = 14 + k := by omega
  rw [e1]
  have e2 : 14 + 1 + k = 14 + k + 1 := by omega
  rw [e2]
  linarith

theorem rsiDiffs_neg_of_decreasing (data : List DailyRecord)
    (hdec : StrictlyDecreasingCloses data) :
    ∀ d ∈ rsiDiffs data 14, d < 0 := by
  intro d hd
  simp only [rsiDiffs, List.mem_map, List.mem_range] at hd
  obtain ⟨k, hk, rfl⟩ := hd
  have h := hdec (14 + k) (by omega)
  simp only [closesDiff]
  have e1 : 14 + 1 + k - 1 = 14 + k := by omega
  rw [e1]
  have e2 : 14 + 1 + k = 14 + k + 1 := by omega
  rw [e2]
  linarith

theorem initLosses_of_increasing (data : List DailyRecord) (hlen : 16 ≤ data.length)
    (hinc : StrictlyIncreasingCloses data) : initLosses data 14 = 0 := by
  apply List.sum_eq_zero
  intro x hx
  simp only [initLosses, List.mem_map, List.mem_range] at hx
  obtain ⟨k, hk, rfl⟩ := hx
  have h := hinc k (by omega)
  have hd : 0 < closesDiff data (k + 1) := by
    simp only [closesDiff]
    have e1 : k + 1 - 1 = k := by omega
    rw [e1]
    linarith
  show (if 0 ≤ closesDiff data (k + 1) then (0 : ℚ) else -closesDiff data (k + 1)) = 0
  rw [if_pos hd.le]

theorem initGains_of_decreasing (data : List DailyRecord) (hlen : 16 ≤ data.length)
    (hdec : StrictlyDecreasingCloses data) : initGains data 14 = 0 := by
  apply List.sum_eq_zero
  intro x hx
  simp only [initGains, List.mem_map, List.mem_range] at hx
  obtain ⟨k, hk, rfl⟩ := hx
  have h := hdec k (by omega)
  have hd : closesDiff data (k + 1) < 0 := by
    simp only [closesDiff]
    have e1 : k + 1 - 1 = k := by omega
    rw [e1]
    linarith
  show (if 0 ≤ closesDiff data (k + 1) then closesDiff data (k + 1) else (0 : ℚ)) = 0
  rw [if_neg (not_le.mpr hd)]

theorem initLosses_pos_of_decreasing (data : List DailyRecord) (hlen : 16 ≤ data.length)
    (hdec : StrictlyDecreasingCloses data) : 0 < initLosses data 14 := by
  apply List.sum_pos
  · intro x hx
    simp only [initLosses, List.mem_map, List.mem_range] at hx
    obtain ⟨k, hk, rfl⟩ := hx
    have h := hdec k (by omega)
    have hd : closesDiff data (k + 1) < 0 := by
      simp only [closesDiff]
      have e1 : k + 1 - 1 = k := by omega
      rw [e1]
      linarith
    show (0 : ℚ) < if 0 ≤ closesDiff data (k + 1) then 0 else -closesDiff data (k + 1)
    rw [if_neg (not_le.mpr hd)]
    linarith
  · simp [initLosses, List.range_succ]

/-- C2 (amended): for every close-price series of length at least 16, if the
closes are strictly increasing then every RSI value `calculateRSI` produces —
in particular the current (last) one — equals `10000/101 = 100 - 100/101`
(about `99.01`, because the code maps a zero average loss to `RS = 100`,
not to `RSI = 100`); if the closes are strictly decreasing, every produced
RSI value is exactly `0`. A series of length exactly 15 produces no RSI
values at all (see C9), so length 16 is the minimum. -/
theorem C2_rsi_extreme_series (data : List DailyRecord) (hlen : 16 ≤ data.length) :
    (StrictlyIncreasingCloses data →
      calculateRSI data 14 = List.replicate (data.length - 15) (10000 / 101)) ∧
    (StrictlyDecreasingCloses data →
      calculateRSI data 14 = List.replicate (data.length - 15) 0) := by
  have hcal : calculateRSI data 14
      = ((rsiDiffs data 14).foldl (rsiStep 14)
          (initGains data 14 / (14 : ℚ), initLosses data 14 / (14 : ℚ), [])).2.2 := by
    norm_num [calculateRSI]
  constructor
  · intro hinc
    rw [hcal, initLosses_of_increasing data hlen hinc, zero_div]
    rw [(foldl_rsiStep_allPos (rsiDiffs data 14) (rsiDiffs_pos_of_increasing data hinc)
      (initGains data 14 / 14) []).2]
    simp [rsiDiffs]
  · intro hdec
    rw [hcal, initGains_of_decreasing data hlen hdec, zero_div]
    rw [foldl_rsiStep_allNeg (rsiDiffs data 14) (rsiDiffs_neg_of_decreasing data hdec)
      (initLosses data 14 / 14)
      (div_pos (initLosses_pos_of_decreasing data hlen hdec) (by norm_num)) []]
    simp [rsiDiffs]

/-- C2 counterexample: `c2IncData` has 16 ≥ 15 records with strictly
increasing closes, yet the current RSI (the last value `calculateRSI`
produces) is `10000/101 ≈ 99.01`, not `100`: the code turns a zero average
loss into `RS = 100` and `RSI = 100 - 100/101`. -/
theorem C2_counterexample :
    StrictlyIncreasingCloses c2IncData ∧ 15 ≤ c2IncData.length ∧
    (calculateRSI c2IncData 14).getD ((calculateRSI c2IncData 14).length - 1) 0 ≠ 100 := by
  have hinc : StrictlyIncreasingCloses c2IncData := by
    intro i hi
    simp only [c2IncData, List.length_cons, List.length_nil] at hi ⊢
    interval_cases i <;> norm_num
  refine ⟨hinc, by norm_num [c2IncData], ?_⟩
  have h := (C2_rsi_extreme_series c2IncData (by norm_num [c2IncData])).1 hinc
  rw [h]
  norm_num [c2IncData]

/-- Witness for C2: the amended theorem evaluated on the concrete
increasing series (last RSI `10000/101`) and decreasing series (last
RSI `0`) of length 16. -/
theorem C2_rsi_extreme_series_witness :
    calculateRSI c2IncData 14 = [10000 / 101] ∧ calculateRSI c2DecData 14 = [0] := by
  have hinc : StrictlyIncreasingCloses c2IncData := by
    intro i hi
    simp only [c2IncData, List.length_cons, List.length_nil] at hi ⊢
    interval_cases i <;> norm_num
  have hdec : StrictlyDecreasingCloses c2DecData := by
    intro i hi
    simp only [c2DecData, List.length_cons, List.length_nil] at hi ⊢
    interval_cases i <;> norm_num
  constructor
  · have h := (C2_rsi_extreme_series c2IncData (by norm_num [c2IncData])).1 hinc
    rw [h]
    norm_num [c2IncData]
  · have h := (C2_rsi_extreme_series c2DecData (by norm_num [c2DecData])).2 hdec
    rw [h]
    norm_num [c2DecData]

/-- C9: a series of exactly 15 records (the detector's stated minimum)
makes `calculateRSI` return an empty list, and the detector substitutes the
hard-coded current RSI `50`; a genuinely computed RSI value requires at
least 16 records (the produced list then has `length - 15 ≥ 1` values). -/
theorem C9_rsi_needs_16_records (data : List DailyRecord) :
    (data.length = 15 → calculateRSI data 14 = [] ∧ detectorCurrentRSI data = 50) ∧
    (16 ≤ data.length →
      (calculateRSI data 14).length = data.length - 15 ∧ 0 < (calculateRSI data 14).length) := by
  have hlen : (calculateRSI data 14).length = data.length - 15 := by
    have h := foldl_rsiStep_length 14
      (rsiDiffs data 14) (initGains data 14 / (14 : ℚ), initLosses data 14 / (14 : ℚ), [])
    have hcal : calculateRSI data 14
        = ((rsiDiffs data 14).foldl (rsiStep 14)
            (initGains data 14 / (14 : ℚ), initLosses data 14 / (14 : ℚ), [])).2.2 := by
      norm_num [calculateRSI]
    rw [hcal, h]
    simp [rsiDiffs]
  constructor
  · intro h15
    have hnil : calculateRSI data 14 = [] := by
      rw [← List.length_eq_zero]
      omega
    refine ⟨hnil, ?_⟩
    simp [detectorCurrentRSI, hnil]
  · intro h16
    exact ⟨hlen, by omega⟩

/-- Witness for C9: the first 15 records of the increasing series give an
empty RSI list and current RSI 50; the full 16 records give one RSI value. -/
theorem C9_rsi_needs_16_records_witness :
    (calculateRSI (c2IncData.take 15) 14 = [] ∧ detectorCurrentRSI (c2IncData.take 15) = 50) ∧
    (0 < (calculateRSI c2IncData 14).length) := by
  constructor
  · exact (C9_rsi_needs_16_records (c2IncData.take 15)).1 (by norm_num [c2IncData])
  · exact ((C9_rsi_needs_16_records c2IncData).2 (by norm_num [c2IncData])).2

/-! ## Support levels (rsiSupport.js, `RsiSupport.findSupportLevels`) -/

/-- The swing-low test: index `i` is a local minimum of `low` if no index
within ±`w` days has a strictly lower `low` (the source skips `j = i`). -/
def isLocalMinLow (data : List DailyRecord) (w i : ℕ) : Bool :=
  ((List.range (2 * w + 1)).map (fun k => i - w + k)).all
    (fun j => decide (j = i) ||
      !decide ((data.getD j default).low < (data.getD i default).low))

/-- One iteration of the support-level scan: if `i` is a local minimum and
its low is not within 2% of an already-found level, append it. -/
def supportStep (data : List DailyRecord) (levels : List ℚ) (i : ℕ) : List ℚ :=
  let currentLow := (data.getD i default).low
  if isLocalMinLow data 5 i then
    if levels.any (fun level => decide (|(level - currentLow) / currentLow| < 2 / 100)) then
      levels
    else
      levels ++ [currentLow]
  else
    levels

/-- `RsiSupport.findSupportLevels`: scan indices `5 … data.length - 6`
(`windowSize = 5` days on each side), collecting deduplicated swing lows. -/
def findSupportLevels (data : List DailyRecord) : List ℚ :=
  (List.range' 5 (data.length - 10)).foldl (supportStep data) []

/-- Index `i` holds the unique global minimum of the `low` values. -/
def UniqueGlobalMinLow (data : List DailyRecord) (i : ℕ) : Prop :=
  i < data.length ∧ ∀ j < data.length, j ≠ i →
    (data.getD i default).low < (data.getD j default).low

theorem supportStep_mem_preserved (data : List DailyRecord) (L : ℚ) :
    ∀ levels j, L ∈ levels → L ∈ supportStep data levels j := by
  intro levels j hL
  simp only [supportStep]
  split
  · split
    · exact hL
    · exact List.mem_append_left _ hL
  · exact hL

theorem foldl_supportStep_mem_preserved (data : List DailyRecord) (L : ℚ) :
    ∀ (is : List ℕ) (levels : List ℚ), L ∈ levels →
      L ∈ is.foldl (supportStep data) levels := by
  intro is
  induction is with
  | nil => intro levels hL; exact hL
  | cons j js ih =>
    intro levels hL
    rw [List.foldl_cons]
    exact ih _ (supportStep_mem_preserved data L levels j hL)

theorem isLocalMinLow_of_uniqueMin (data : List DailyRecord) (i : ℕ)
    (hmin : UniqueGlobalMinLow data i) (hlo : 5 ≤ i) (hhi : i + 5 < data.length) :
    isLocalMinLow data 5 i = true := by
  unfold isLocalMinLow
  rw [List.all_eq_true]
  intro j hj
  simp only [List.mem_map, List.mem_range] at hj
  obtain ⟨k, hk, rfl⟩ := hj
  by_cases hji : i - 5 + k = i
  · simp [hji]
  · have hjlen : i - 5 + k < data.length := by omega
    have hlt := hmin.2 (i - 5 + k) hjlen hji
    simp only [hji, decide_False, Bool.false_or, Bool.not_eq_true', decide_eq_false_iff_not]
    exact lt_asymm hlt

/-- C3 (amended): if the unique global minimum of the `low` values sits at
an interior index `i` (at least 5 records on each side, so the scan loop
visits it) and the low is positive, then `findSupportLevels` returns a list
containing either that minimum itself or an earlier-found support level
within 2% of it (the deduplication step may suppress the minimum in favor
of such a level). At boundary indices (`i < 5` or `i + 5 ≥ length`) the
minimum is never visited and can be absent, refuting the original claim. -/
theorem C3_support_detects_interior_min (data : List DailyRecord) (i : ℕ)
    (hmin : UniqueGlobalMinLow data i) (hlo : 5 ≤ i) (hhi : i + 5 < data.length) :
    ∃ L ∈ findSupportLevels data,
      L = (data.getD i default).low ∨
      |(L - (data.getD i default).low) / (data.getD i default).low| < 2 / 100 := by
  have hiMem : i ∈ List.range' 5 (data.length - 10) := by
    rw [List.mem_range'_1]
    omega
  obtain ⟨l₁, l₂, hsplit⟩ := List.append_of_mem hiMem
  unfold findSupportLevels
  rw [hsplit, List.foldl_append, List.foldl_cons]
  have hloc := isLocalMinLow_of_uniqueMin data i hmin hlo hhi
  set levels₀ := l₁.foldl (supportStep data) [] with hlev
  set m := (data.getD i default).low with hm
  by_cases hany :
      (levels₀.any (fun level => decide (|(level - m) / m| < 2 / 100))) = true
  · obtain ⟨L, hLmem, hLdec⟩ := List.any_eq_true.mp hany
    refine ⟨L, ?_, Or.inr (of_decide_eq_true hLdec)⟩
    apply foldl_supportStep_mem_preserved
    unfold supportStep
    rw [hloc]
    simp only [if_true, hany, if_pos]
    exact hLmem
  · refine ⟨m, ?_, Or.inl rfl⟩
    apply foldl_supportStep_mem_preserved
    unfold supportStep
    rw [hloc]
    simp only [if_true]
    rw [if_neg (by rw [← hm]; exact fun h => hany h)]
    exact List.mem_append_right _ (List.mem_singleton.mpr rfl)

/-- 20 records whose lows increase 1, 2, …, 20: the unique global minimum
low sits at index 0, outside the scanned range `5 … 13`. -/
def c3EdgeData : List DailyRecord :=
  [⟨0, 0, 0, 1, 1, 10⟩, ⟨1, 0, 0, 2, 2, 10⟩, ⟨2, 0, 0, 3, 3, 10⟩, ⟨3, 0, 0, 4, 4, 10⟩,
   ⟨4, 0, 0, 5, 5, 10⟩, ⟨5, 0, 0, 6, 6, 10⟩, ⟨6, 0, 0, 7, 7, 10⟩, ⟨7, 0, 0, 8, 8, 10⟩,
   ⟨8, 0, 0, 9, 9, 10⟩, ⟨9, 0, 0, 10, 10, 10⟩, ⟨10, 0, 0, 11, 11, 10⟩, ⟨11, 0, 0, 12, 12, 10⟩,
   ⟨12, 0, 0, 13, 13, 10⟩, ⟨13, 0, 0, 14, 14, 10⟩, ⟨14, 0, 0, 15, 15, 10⟩,
   ⟨15, 0, 0, 16, 16, 10⟩, ⟨16, 0, 0, 17, 17, 10⟩, ⟨17, 0, 0, 18, 18, 10⟩,
   ⟨18, 0, 0, 19, 19, 10⟩, ⟨19, 0, 0, 20, 20, 10⟩]

/-- C3 counterexample: `c3EdgeData` has its unique global minimum low (1, at
index 0, with no lower low within ±5 days anywhere), yet `findSupportLevels`
returns the empty list — the scan loop only visits indices
`windowSize … length - windowSize - 1`, so an edge minimum is never
detected, refuting "regardless of where in the series the minimum occurs". -/
theorem C3_counterexample :
    UniqueGlobalMinLow c3EdgeData 0 ∧ (c3EdgeData.getD 0 default).low = 1 ∧
    findSupportLevels c3EdgeData = [] := by
  refine ⟨⟨by norm_num [c3EdgeData], ?_⟩, by norm_num [c3EdgeData], ?_⟩
  · intro j hj hne
    simp only [c3EdgeData, List.length_cons, List.length_nil] at hj
    interval_cases j
    · exact absurd rfl hne
    all_goals norm_num [c3EdgeData]
  · norm_num [findSupportLevels, supportStep, isLocalMinLow, c3EdgeData,
      List.range', List.range_succ]

/-- 11 records with lows 10 except a unique global minimum 9 at index 5. -/
def c3wData : List DailyRecord :=
  [⟨0, 0, 0, 10, 10, 10⟩, ⟨1, 0, 0, 10, 10, 10⟩, ⟨2, 0, 0, 10, 10, 10⟩,
   ⟨3, 0, 0, 10, 10, 10⟩, ⟨4, 0, 0, 10, 10, 10⟩, ⟨5, 0, 0, 9, 9, 10⟩,
   ⟨6, 0, 0, 10, 10, 10⟩, ⟨7, 0, 0, 10, 10, 10⟩, ⟨8, 0, 0, 10, 10, 10⟩,
   ⟨9, 0, 0, 10, 10, 10⟩, ⟨10, 0, 0, 10, 10, 10⟩]

/-- Witness for C3: the amended theorem applied to `c3wData`, whose unique
global minimum 9 sits at the interior index 5 and is indeed returned. -/
theorem C3_support_detects_interior_min_witness :
    ∃ L ∈ findSupportLevels c3wData, L = 9 ∨ |(L - 9) / 9| < 2 / 100 := by
  have hmin : UniqueGlobalMinLow c3wData 5 := by
    refine ⟨by norm_num [c3wData], ?_⟩
    intro j hj hne
    simp only [c3wData, List.length_cons, List.length_nil] at hj
    interval_cases j
    all_goals first
      | exact absurd rfl hne
      | norm_num [c3wData]
  have h := C3_support_detects_interior_min c3wData 5 hmin (by norm_num)
    (by norm_num [c3wData])
  simpa [c3wData] using h

/-! ## Persisted notification state (utils/stateManager.js, `StateManager`) -/

structure TrendlineEntry where
  trend : String
  firstDetected : ℤ
  lastUpdated : ℤ
  deriving DecidableEq

structure RsiEntry where
  rsi : ℚ
  supportLevel : ℚ
  timestamp : ℤ
  deriving DecidableEq

structure InstEntry where
  score : ℚ
  timestamp : ℤ
  deriving DecidableEq

/-- The `StateManager` state shape: one slice per detector plus a
`lastUpdated` stamp set by `saveState`. -/
structure NotificationState where
  lastUpdated : Option ℤ
  institutionalStocks : List (String × InstEntry)
  trendlineStocks : List (String × TrendlineEntry)
  rsiSupportStocks : List (String × RsiEntry)
  heatmapStocks : List (String × ℤ)
  deriving DecidableEq

/-- The constructor's default state (empty slices, no `lastUpdated`). -/
def initialState : NotificationState := ⟨none, [], [], [], []⟩

namespace StateManager

/-- The method names the `StateManager` class defines (stateManager.js);
dynamic dispatch on any other name is a `TypeError` at runtime. -/
def methodNames : List String :=
  ["initialize", "loadState", "saveState", "updateInstitutionalStocks",
   "updateTrendlineStocks", "updateRSISupportStocks", "updateHeatmapStocks",
   "isNewTrendlineStock", "getState"]

/-- `updateTrendlineStocks`: replace the trendline slice wholesale, then
`saveState` stamps `lastUpdated`. -/
def updateTrendlineStocks (st : NotificationState)
    (stocks : List (String × TrendlineEntry)) (now : ℤ) : NotificationState :=
  { st with trendlineStocks := stocks, lastUpdated := some now }

/-- `updateInstitutionalStocks`: replace the institutional slice wholesale. -/
def updateInstitutionalStocks (st : NotificationState)
    (stocks : List (String × InstEntry)) (now : ℤ) : NotificationState :=
  { st with institutionalStocks := stocks, lastUpdated := some now }

/-- `updateRSISupportStocks`: replace the RSI slice wholesale. -/
def updateRSISupportStocks (st : NotificationState)
    (stocks : List (String × RsiEntry)) (now : ℤ) : NotificationState :=
  { st with rsiSupportStocks := stocks, lastUpdated := some now }

end StateManager

/-! ## Generic lookup/upsert lemmas -/

theorem lookupS_cons {α : Type} (k₀ key : String) (v₀ : α) (rest : List (String × α)) :
    lookupS ((k₀, v₀) :: rest) key = if k₀ = key then some v₀ else lookupS rest key := rfl

theorem lookupS_map_set {α : Type} (k : String) (v : α) :
    ∀ (m : List (String × α)), m.any (fun p => p.1 = k) = true →
      lookupS (m.map (fun p => if p.1 = k then (k, v) else p)) k = some v := by
  intro m
  induction m with
  | nil => intro h; simp at h
  | cons hd rest ih =>
    obtain ⟨k₀, v₀⟩ := hd
    intro hany
    rw [List.map_cons]
    by_cases hk : k₀ = k
    · rw [show (if (k₀, v₀).1 = k then (k, v) else (k₀, v₀)) = (k, v) from if_pos hk]
      rw [lookupS_cons, if_pos rfl]
    · rw [show (if (k₀, v₀).1 = k then (k, v) else (k₀, v₀)) = (k₀, v₀) from if_neg hk]
      rw [lookupS_cons, if_neg hk]
      apply ih
      simpa [hk] using hany

theorem lookupS_map_set_ne {α : Type} (k k' : String) (v : α) (hne : k' ≠ k) :
    ∀ (m : List (String × α)),
      lookupS (m.map (fun p => if p.1 = k then (k, v) else p)) k' = lookupS m k' := by
  intro m
  induction m with
  | nil => rfl
  | cons hd rest ih =>
    obtain ⟨k₀, v₀⟩ := hd
    rw [List.map_cons]
    by_cases hk : k₀ = k
    · rw [show (if (k₀, v₀).1 = k then (k, v) else (k₀, v₀)) = (k, v) from if_pos hk]
      rw [lookupS_cons, lookupS_cons, if_neg (fun h => hne (Eq.symm h)),
        if_neg (fun h => hne (hk ▸ Eq.symm h)), ih]
    · rw [show (if (k₀, v₀).1 = k then (k, v) else (k₀, v₀)) = (k₀, v₀) from if_neg hk]
      rw [lookupS_cons, lookupS_cons, ih]

theorem lookupS_none_of_not_any {α : Type} (k : String) :
    ∀ (m : List (String × α)), m.any (fun p => p.1 = k) = false → lookupS m k = none := by
  intro m
  induction m with
  | nil => intro _; rfl
  | cons hd rest ih =>
    obtain ⟨k₀, v₀⟩ := hd
    intro h
    simp only [List.any_cons, Bool.or_eq_false_iff, decide_eq_false_iff_not] at h
    rw [lookupS_cons, if_neg h.1]
    exact ih (by simp [h.2])

theorem lookupS_append_right {α : Type} (k : String) (m l : List (String × α))
    (h : lookupS m k = none) : lookupS (m ++ l) k = lookupS l k := by
  induction m with
  | nil => rfl
  | cons hd rest ih =>
    obtain ⟨k₀, v₀⟩ := hd
    rw [lookupS_cons] at h
    rw [List.cons_append, lookupS_cons]
    by_cases hk : k₀ = k
    · rw [if_pos hk] at h
      exact absurd h (by simp)
    · rw [if_neg hk] at h
      rw [if_neg hk]
      exact ih h

theorem lookupS_append_left {α : Type} (k : String) (m l : List (String × α)) (v : α)
    (h : lookupS m k = some v) : lookupS (m ++ l) k = some v := by
  induction m with
  | nil => exact absurd h (by simp [lookupS])
  | cons hd rest ih =>
    obtain ⟨k₀, v₀⟩ := hd
    rw [lookupS_cons] at h
    rw [List.cons_append, lookupS_cons]
    by_cases hk : k₀ = k
    · rw [if_pos hk] at h ⊢
      exact h
    · rw [if_neg hk] at h ⊢
      exact ih h

theorem lookupS_upsert_self {α : Type} (m : List (String × α)) (k : String) (v : α) :
    lookupS (upsert m k v) k = some v := by
  unfold upsert
  by_cases hany : m.any (fun p => p.1 = k) = true
  · rw [if_pos hany]
    exact lookupS_map_set k v m hany
  · rw [if_neg hany,
      lookupS_append_right k m _ (lookupS_none_of_not_any k m
        (by cases h : m.any (fun p => p.1 = k) with
            | false => rfl
            | true => exact absurd h hany))]
    rw [lookupS_cons, if_pos rfl]

theorem lookupS_upsert_ne {α : Type} (m : List (String × α)) (k k' : String) (v : α)
    (hne : k' ≠ k) : lookupS (upsert m k v) k' = lookupS m k' := by
  unfold upsert
  by_cases hany : m.any (fun p => p.1 = k) = true
  · rw [if_pos hany]
    exact lookupS_map_set_ne k k' v hne m
  · rw [if_neg hany]
    cases h : lookupS m k' with
    | none =>
      rw [lookupS_append_right k' m _ h, lookupS_cons,
        if_neg (fun h' => hne (Eq.symm h'))]
      rfl
    | some v' => exact lookupS_append_left k' m _ v' h

/-! ## Trendline detector (rsiSupport.js, `TrendlineScanner.filterUptrendStocks`) -/

/-- One stock row of the trendline scanner's `stocksData`
(`daysSinceDetected` is attached only to `existing` stocks). -/
structure TrendStock where
  symbol : String
  name : String
  trend : String
  percentChange : ℚ
  trendStrength : ℚ
  lastPrice : ℚ
  support : ℚ
  volume : ℚ
  daysSinceDetected : Option ℤ
  deriving DecidableEq

/-- The `{new, existing}` result object of `filterUptrendStocks`. -/
structure TrendResult where
  new : List TrendStock
  existing : List TrendStock
  deriving DecidableEq

def msPerDay : ℤ := 1000 * 60 * 60 * 24

/-- The qualification test of the forEach body:
`stock.trend === 'Uptrend' && stock.percentChange >= minPercentChange / 100`. -/
def qualifiesUptrend (minPercentChange : ℚ) (s : TrendStock) : Bool :=
  decide (s.trend = "Uptrend") && decide (minPercentChange / 100 ≤ s.percentChange)

/-- One iteration of the forEach: a qualifying stock is `new` when absent
from the previous state, else `existing` with `daysSinceDetected` set to
`floor((now - firstDetected) / msPerDay)`. -/
def classifyStock (minPercentChange : ℚ) (prev : List (String × TrendlineEntry)) (now : ℤ)
    (acc : TrendResult) (stock : TrendStock) : TrendResult :=
  if qualifiesUptrend minPercentChange stock then
    match lookupS prev stock.symbol with
    | none => { acc with new := acc.new ++ [stock] }
    | some p =>
        let daysSince := (now - p.firstDetected).fdiv msPerDay
        { acc with existing :=
            acc.existing ++ [{ stock with daysSinceDetected := some daysSince }] }
  else
    acc

/-- One entry of `updatedStocks`:
`firstDetected = previousStocks[symbol]?.firstDetected || now`. -/
def trendlineEntryFor (prev : List (String × TrendlineEntry)) (now : ℤ)
    (stock : TrendStock) : TrendlineEntry :=
  { trend := stock.trend
    firstDetected := ((lookupS prev stock.symbol).map (fun p => p.firstDetected)).getD now
    lastUpdated := now }

/-- The `updatedStocks` object built from `[...result.new, ...result.existing]`. -/
def buildUpdatedTrendline (prev : List (String × TrendlineEntry)) (now : ℤ)
    (stocks : List TrendStock) : List (String × TrendlineEntry) :=
  stocks.foldl (fun m stock => upsert m stock.symbol (trendlineEntryFor prev now stock)) []

/-- `TrendlineScanner.filterUptrendStocks`: classify qualifying stocks into
new/existing against the previous trendline slice, then overwrite that slice
wholesale via `stateManager.updateTrendlineStocks`. -/
def filterUptrendStocks (minPercentChange : ℚ) (stocksData : List TrendStock)
    (st : NotificationState) (now : ℤ) : TrendResult × NotificationState :=
  let previousStocks := st.trendlineStocks
  let result := stocksData.foldl (classifyStock minPercentChange previousStocks now) ⟨[], []⟩
  let updatedStocks := buildUpdatedTrendline previousStocks now (result.new ++ result.existing)
  (result, StateManager.updateTrendlineStocks st updatedStocks now)

/-! ## Trendline lemmas -/

theorem lookupS_foldl_upsert_isSome {α σ : Type} (keyf : σ → String) (ef : σ → α)
    (sym : String) :
    ∀ (stocks : List σ) (m : List (String × α)),
      (lookupS (stocks.foldl (fun acc s => upsert acc (keyf s) (ef s)) m) sym).isSome
        = ((lookupS m sym).isSome || stocks.any (fun s => keyf s = sym)) := by
  intro stocks
  induction stocks with
  | nil => intro m; simp
  | cons s rest ih =>
    intro m
    rw [List.foldl_cons, ih]
    by_cases h : keyf s = sym
    · rw [← h, lookupS_upsert_self]
      simp [h]
    · rw [lookupS_upsert_ne _ _ _ _ (fun h' => h (Eq.symm h'))]
      simp [h]

theorem lookupS_foldl_upsert_map {α β σ : Type} (keyf : σ → String) (ef : σ → α)
    (g : α → β) (sym : String) (target : β) :
    ∀ (stocks : List σ) (m : List (String × α)),
      (∀ s ∈ stocks, keyf s = sym → g (ef s) = target) →
      (lookupS (stocks.foldl (fun acc s => upsert acc (keyf s) (ef s)) m) sym).map g
        = if stocks.any (fun s => keyf s = sym) then some target
          else (lookupS m sym).map g := by
  intro stocks
  induction stocks with
  | nil => intro m _; simp
  | cons s rest ih =>
    intro m hall
    rw [List.foldl_cons, ih _ (fun t ht h => hall t (List.mem_cons_of_mem _ ht) h)]
    by_cases h : keyf s = sym
    · have hv : g (ef s) = target := hall s (List.mem_cons_self s rest) h
      rw [← h, lookupS_upsert_self]
      simp only [List.any_cons, h, decide_True, Bool.true_or, if_true]
      split <;> simp [hv]
    · rw [lookupS_upsert_ne _ _ _ _ (fun h' => h (Eq.symm h'))]
      simp [h]

theorem classify_symbols (minPC : ℚ) (prev : List (String × TrendlineEntry)) (now : ℤ)
    (sym : String) :
    ∀ (stocks : List TrendStock) (acc : TrendResult),
      (((stocks.foldl (classifyStock minPC prev now) acc).new
          ++ (stocks.foldl (classifyStock minPC prev now) acc).existing).any
            (fun s => s.symbol = sym))
        = ((acc.new ++ acc.existing).any (fun s => s.symbol = sym)
            || stocks.any (fun s => decide (s.symbol = sym) && qualifiesUptrend minPC s)) := by
  intro stocks
  induction stocks with
  | nil => intro acc; simp
  | cons s rest ih =>
    intro acc
    rw [List.foldl_cons, ih]
    simp only [List.any_cons]
    by_cases hq : qualifiesUptrend minPC s = true
    · simp only [classifyStock, hq, if_true]
      cases hl : lookupS prev s.symbol with
      | none =>
        simp only [List.any_append, List.any_cons, List.any_nil, hq, Bool.and_true]
        cases h1 : List.any acc.new (fun s => s.symbol = sym) <;>
          cases h2 : List.any acc.existing (fun s => s.symbol = sym) <;>
          cases h3 : (decide (s.symbol = sym)) <;> simp
      | some p =>
        simp only [List.any_append, List.any_cons, List.any_nil, hq, Bool.and_true]
        cases h1 : List.any acc.new (fun s => s.symbol = sym) <;>
          cases h2 : List.any acc.existing (fun s => s.symbol = sym) <;>
          cases h3 : (decide (s.symbol = sym)) <;> simp_all
    · have hq' : qualifiesUptrend minPC s = false := by
        cases h : qualifiesUptrend minPC s with
        | false => rfl
        | true => exact absurd h hq
      simp only [classifyStock, hq', Bool.false_eq_true, if_false, hq', Bool.and_false,
        Bool.false_or]

theorem classify_congr (minPC : ℚ) (now : ℤ)
    (prev1 prev2 : List (String × TrendlineEntry)) :
    ∀ (stocks : List TrendStock) (acc : TrendResult),
      (∀ s ∈ stocks, qualifiesUptrend minPC s = true →
        (lookupS prev1 s.symbol).map (fun e => e.firstDetected)
          = (lookupS prev2 s.symbol).map (fun e => e.firstDetected)) →
      stocks.foldl (classifyStock minPC prev1 now) acc
        = stocks.foldl (classifyStock minPC prev2 now) acc := by
  intro stocks
  induction stocks with
  | nil => intro acc _; rfl
  | cons s rest ih =>
    intro acc hall
    rw [List.foldl_cons, List.foldl_cons]
    have hrest := fun t ht h => hall t (List.mem_cons_of_mem _ ht) h
    by_cases hq : qualifiesUptrend minPC s = true
    · have heq := hall s (List.mem_cons_self s rest) hq
      cases h1 : lookupS prev1 s.symbol with
      | none =>
        cases h2 : lookupS prev2 s.symbol with
        | none =>
          simp only [classifyStock, hq, if_true, h1, h2]
          exact ih _ hrest
        | some p2 => rw [h1, h2] at heq; simp at heq
      | some p1 =>
        cases h2 : lookupS prev2 s.symbol with
        | none => rw [h1, h2] at heq; simp at heq
        | some p2 =>
          rw [h1, h2] at heq
          simp only [Option.map_some'] at heq
          injection heq with heq'
          simp only [classifyStock, hq, if_true, h1, h2, heq']
          exact ih _ hrest
    · have hq' : qualifiesUptrend minPC s = false := by
        cases h : qualifiesUptrend minPC s with
        | false => rfl
        | true => exact absurd h hq
      simp only [classifyStock, hq', Bool.false_eq_true, if_false]
      exact ih _ hrest

theorem mem_existing_classify (minPC : ℚ) (prev : List (String × TrendlineEntry)) (now : ℤ) :
    ∀ (stocks : List TrendStock) (acc : TrendResult) (s : TrendStock),
      s ∈ (stocks.foldl (classifyStock minPC prev now) acc).existing →
      s ∈ acc.existing ∨ ∃ t ∈ stocks, qualifiesUptrend minPC t = true ∧
        ∃ p, lookupS prev t.symbol = some p ∧
          s = { t with daysSinceDetected := some ((now - p.firstDetected).fdiv msPerDay) } := by
  intro stocks
  induction stocks with
  | nil => intro acc s h; exact Or.inl h
  | cons t rest ih =>
    intro acc s h
    rw [List.foldl_cons] at h
    rcases ih _ s h with hacc | ⟨t', ht', hq', p, hp, hs⟩
    · by_cases hq : qualifiesUptrend minPC t = true
      · cases hl : lookupS prev t.symbol with
        | none =>
          simp only [classifyStock, hq, if_true, hl] at hacc
          exact Or.inl hacc
        | some p =>
          simp only [classifyStock, hq, if_true, hl] at hacc
          rcases List.mem_append.mp hacc with h1 | h2
          · exact Or.inl h1
          · refine Or.inr ⟨t, List.mem_cons_self t rest, hq, p, hl, ?_⟩
            simpa using List.mem_singleton.mp h2
      · have hq' : qualifiesUptrend minPC t = false := by
          cases hqq : qualifiesUptrend minPC t with
          | false => rfl
          | true => exact absurd hqq hq
        simp only [classifyStock, hq', Bool.false_eq_true, if_false] at hacc
        exact Or.inl hacc
    · exact Or.inr ⟨t', List.mem_cons_of_mem _ ht', hq', p, hp, hs⟩

theorem lookupS_buildUpdated_map_fd (prev : List (String × TrendlineEntry)) (now : ℤ)
    (stocks : List TrendStock) (sym : String) :
    (lookupS (buildUpdatedTrendline prev now stocks) sym).map (fun e => e.firstDetected)
      = if stocks.any (fun s => s.symbol = sym)
        then some (((lookupS prev sym).map (fun e => e.firstDetected)).getD now)
        else none := by
  unfold buildUpdatedTrendline
  rw [lookupS_foldl_upsert_map (fun s => s.symbol) (fun s => trendlineEntryFor prev now s)
    (fun e => e.firstDetected) sym (((lookupS prev sym).map (fun e => e.firstDetected)).getD now)
    stocks [] (fun s _ h => by simp [trendlineEntryFor, h])]
  rfl

theorem lookupS_buildUpdated_isSome (prev : List (String × TrendlineEntry)) (now : ℤ)
    (stocks : List TrendStock) (sym : String) :
    (lookupS (buildUpdatedTrendline prev now stocks) sym).isSome
      = stocks.any (fun s => s.symbol = sym) := by
  unfold buildUpdatedTrendline
  rw [lookupS_foldl_upsert_isSome (fun s => s.symbol) (fun s => trendlineEntryFor prev now s)
    sym stocks []]
  rfl

/-- C5: after every trendline pass, the persisted trendline slice contains
exactly the symbols that qualified (`Uptrend` with `percentChange` at or
above the minimum) in that pass — the slice is replaced wholesale by
`updateTrendlineStocks`, never merged, so previously stored symbols that no
longer qualify are dropped. -/
theorem C5_trendline_state_exact (minPC : ℚ) (stocksData : List TrendStock)
    (st : NotificationState) (now : ℤ) (sym : String) :
    (lookupS ((filterUptrendStocks minPC stocksData st now).2.trendlineStocks) sym).isSome
        = true
      ↔ ∃ s ∈ stocksData, s.symbol = sym ∧ qualifiesUptrend minPC s = true := by
  have h1 : (filterUptrendStocks minPC stocksData st now).2.trendlineStocks
      = buildUpdatedTrendline st.trendlineStocks now
          ((stocksData.foldl (classifyStock minPC st.trendlineStocks now) ⟨[], []⟩).new
            ++ (stocksData.foldl (classifyStock minPC st.trendlineStocks now)
                  ⟨[], []⟩).existing) := rfl
  rw [h1, lookupS_buildUpdated_isSome, classify_symbols]
  simp [List.any_eq_true]

/-- Witness for C5 (and the spec's overwrite scenario): with symbols A and B
stored from a previous pass, a pass in which only A qualifies leaves a state
containing A and not B. -/
theorem C5_trendline_state_exact_witness :
    (lookupS ((filterUptrendStocks 1
        [⟨"A", "A", "Uptrend", 5 / 100, 1, 100, 90, 10, none⟩]
        ⟨some 0, [], [("A", ⟨"Uptrend", 0, 0⟩), ("B", ⟨"Uptrend", 0, 0⟩)], [], []⟩
        0).2.trendlineStocks) "A").isSome = true
    ∧ (lookupS ((filterUptrendStocks 1
        [⟨"A", "A", "Uptrend", 5 / 100, 1, 100, 90, 10, none⟩]
        ⟨some 0, [], [("A", ⟨"Uptrend", 0, 0⟩), ("B", ⟨"Uptrend", 0, 0⟩)], [], []⟩
        0).2.trendlineStocks) "B").isSome = false := by
  constructor
  · rw [C5_trendline_state_exact]
    refine ⟨_, List.mem_singleton.mpr rfl, rfl, ?_⟩
    norm_num [qualifiesUptrend]
  · rw [Bool.eq_false_iff]
    intro h
    rw [C5_trendline_state_exact] at h
    obtain ⟨s, hs, hsym, _⟩ := h
    rw [List.mem_singleton] at hs
    subst hs
    simp at hsym

/-- The trendline slice after one `filterUptrendStocks` pass over slice
`prev` (definitionally `(filterUptrendStocks …).2.trendlineStocks`). -/
def trendPassSlice (minPC : ℚ) (stocksData : List TrendStock) (now : ℤ)
    (prev : List (String × TrendlineEntry)) : List (String × TrendlineEntry) :=
  buildUpdatedTrendline prev now
    ((stocksData.foldl (classifyStock minPC prev now) ⟨[], []⟩).new
      ++ (stocksData.foldl (classifyStock minPC prev now) ⟨[], []⟩).existing)

theorem filterUptrend_slice_eq (minPC : ℚ) (stocksData : List TrendStock)
    (st : NotificationState) (now : ℤ) :
    (filterUptrendStocks minPC stocksData st now).2.trendlineStocks
      = trendPassSlice minPC stocksData now st.trendlineStocks := rfl

theorem trendPassSlice_lookup_fd (minPC : ℚ) (stocksData : List TrendStock) (now : ℤ)
    (prev : List (String × TrendlineEntry)) (s : TrendStock) (hs : s ∈ stocksData)
    (hq : qualifiesUptrend minPC s = true) :
    (lookupS (trendPassSlice minPC stocksData now prev) s.symbol).map
        (fun e => e.firstDetected)
      = some (((lookupS prev s.symbol).map (fun e => e.firstDetected)).getD now) := by
  unfold trendPassSlice
  rw [lookupS_buildUpdated_map_fd]
  rw [if_pos]
  rw [classify_symbols]
  simp only [List.nil_append, List.any_nil, Bool.false_or]
  rw [List.any_eq_true]
  exact ⟨s, hs, by simp [hq]⟩

/-- C6: starting from the state produced by a first run, running the
trendline detector twice more in immediate succession (same `now`, same
input) yields identical `existing` lists both times — the overwrite
preserves each tracked symbol's `firstDetected` — and every `existing`
entry whose symbol was absent from the original state (first detected at
`now`) carries `daysSinceDetected = 0`. -/
theorem C6_trendline_rerun_idempotent (minPC : ℚ) (stocksData : List TrendStock)
    (st0 : NotificationState) (now : ℤ) :
    (filterUptrendStocks minPC stocksData
        (filterUptrendStocks minPC stocksData st0 now).2 now).1.existing
      = (filterUptrendStocks minPC stocksData
          (filterUptrendStocks minPC stocksData
            (filterUptrendStocks minPC stocksData st0 now).2 now).2 now).1.existing
    ∧ ∀ s ∈ (filterUptrendStocks minPC stocksData
          (filterUptrendStocks minPC stocksData st0 now).2 now).1.existing,
        lookupS st0.trendlineStocks s.symbol = none → s.daysSinceDetected = some 0 := by
  have hlook1 : ∀ s ∈ stocksData, qualifiesUptrend minPC s = true →
      (lookupS (trendPassSlice minPC stocksData now st0.trendlineStocks) s.symbol).map
          (fun e => e.firstDetected)
        = some (((lookupS st0.trendlineStocks s.symbol).map
            (fun e => e.firstDetected)).getD now) :=
    fun s hs hq => trendPassSlice_lookup_fd minPC stocksData now st0.trendlineStocks s hs hq
  have hlook2 : ∀ s ∈ stocksData, qualifiesUptrend minPC s = true →
      (lookupS (trendPassSlice minPC stocksData now
          (trendPassSlice minPC stocksData now st0.trendlineStocks)) s.symbol).map
            (fun e => e.firstDetected)
        = (lookupS (trendPassSlice minPC stocksData now st0.trendlineStocks) s.symbol).map
            (fun e => e.firstDetected) := by
    intro s hs hq
    rw [trendPassSlice_lookup_fd minPC stocksData now _ s hs hq, hlook1 s hs hq]
    simp
  constructor
  · show (stocksData.foldl (classifyStock minPC
        (trendPassSlice minPC stocksData now st0.trendlineStocks) now) ⟨[], []⟩).existing
      = (stocksData.foldl (classifyStock minPC
          (trendPassSlice minPC stocksData now
            (trendPassSlice minPC stocksData now st0.trendlineStocks)) now)
          ⟨[], []⟩).existing
    rw [classify_congr minPC now
      (trendPassSlice minPC stocksData now st0.trendlineStocks)
      (trendPassSlice minPC stocksData now
        (trendPassSlice minPC stocksData now st0.trendlineStocks))
      stocksData ⟨[], []⟩ (fun s hs hq => (hlook2 s hs hq).symm)]
  · intro s hs hnone
    have hs' : s ∈ (stocksData.foldl (classifyStock minPC
        (trendPassSlice minPC stocksData now st0.trendlineStocks) now)
        ⟨[], []⟩).existing := hs
    rcases mem_existing_classify minPC
        (trendPassSlice minPC stocksData now st0.trendlineStocks) now stocksData
        ⟨[], []⟩ s hs' with h | h
    · simp at h
    · obtain ⟨t, ht, hq, p, hp, hs_eq⟩ := h
      have hsym : s.symbol = t.symbol := by rw [hs_eq]
      rw [hsym] at hnone
      have hfd := hlook1 t ht hq
      rw [hp, hnone] at hfd
      simp only [Option.map_none', Option.getD_none, Option.map_some'] at hfd
      injection hfd with hfd'
      rw [hs_eq]
      simp [hfd', msPerDay, Int.zero_fdiv]

/-! ## Institutional activity (meroShareProxy.js, `InstitutionalActivity`) -/

/-- One stock row of the institutional scanner's `stocksData`
(`percentChange` is stored already divided by 100). -/
structure InstStock where
  symbol : String
  name : String
  score : ℚ
  percentChange : ℚ
  volume : ℚ
  activity : String
  deriving DecidableEq

def listMax : List ℚ → ℚ
  | [] => 0
  | x :: xs => xs.foldl max x

def listMin : List ℚ → ℚ
  | [] => 0
  | x :: xs => xs.foldl min x

/-- On-Balance Volume over the 30-day window: add the day's volume when the
close rose, subtract it when it fell. -/
def computeOBV (data : List DailyRecord) : ℚ :=
  (List.range (data.length - 1)).foldl (fun obv i =>
    let currentClose := (data.getD (i + 1) default).close
    let previousClose := (data.getD i default).close
    let currentVolume := (data.getD (i + 1) default).volume
    if previousClose < currentClose then obv + currentVolume
    else if currentClose < previousClose then obv - currentVolume
    else obv) 0

/-- Factor 1, volume anomalies (max 0.3): thresholds 1.5×, 1.2×, 1× on
`avgRecentVolume > avgVolume * r`. -/
def volumeAnomalyScore (avgRecentVolume avgVolume : ℚ) : ℚ :=
  if avgVolume * (3 / 2) < avgRecentVolume then 3 / 10
  else if avgVolume * (6 / 5) < avgRecentVolume then 2 / 10
  else if avgVolume < avgRecentVolume then 1 / 10
  else 0

/-- Factor 2, price trend alignment (max 0.3). -/
def alignmentScore (percentChange volumeChange : ℚ) : ℚ :=
  if 5 < percentChange ∧ 13 / 10 < volumeChange then 3 / 10
  else if 2 < percentChange ∧ 11 / 10 < volumeChange then 2 / 10
  else if 0 < percentChange ∧ 1 < volumeChange then 1 / 10
  else 0

/-- Factor 3, price stability (max 0.2): range thresholds 5%, 10%, 15%. -/
def stabilityScore (priceRange : ℚ) : ℚ :=
  if priceRange < 5 / 100 then 2 / 10
  else if priceRange < 1 / 10 then 3 / 20
  else if priceRange < 3 / 20 then 1 / 10
  else 0

/-- Factor 4, OBV trend (max 0.2). -/
def obvScore (obv percentChange : ℚ) : ℚ :=
  if 0 < obv ∧ 0 < percentChange then 2 / 10
  else if 0 < obv then 1 / 10
  else 0

/-- The activity label derived from score and (raw, ×100) percent change. -/
def activityLabel (score percentChange : ℚ) : String :=
  if 7 / 10 ≤ score ∧ 0 < percentChange then "Increasing"
  else if 1 / 2 ≤ score ∧ percentChange < 0 then "Decreasing"
  else if 1 / 2 ≤ score then "Stable"
  else "Neutral"

def instAvgVolume (recentData : List DailyRecord) : ℚ :=
  let volumes := recentData.map (fun d => d.volume)
  volumes.sum / (volumes.length : ℚ)

/-- Mean volume of `recentData.slice(-5)`. -/
def instAvgRecentVolume (recentData : List DailyRecord) : ℚ :=
  let recentVolumes := (recentData.drop (recentData.length - 5)).map (fun d => d.volume)
  recentVolumes.sum / (recentVolumes.length : ℚ)

/-- Raw percent change over the window (×100 scale). -/
def instPercentChange (recentData : List DailyRecord) : ℚ :=
  let startPrice := (recentData.getD 0 default).close
  let endPrice := (recentData.getD (recentData.length - 1) default).close
  ((endPrice - startPrice) / startPrice) * 100

/-- `avgRecentVolume / (avgVolume || 1)`. -/
def instVolumeChange (recentData : List DailyRecord) : ℚ :=
  instAvgRecentVolume recentData /
    (if instAvgVolume recentData = 0 then 1 else instAvgVolume recentData)

/-- `(max(close) - min(close)) / min(close)` over the window. -/
def instPriceRange (recentData : List DailyRecord) : ℚ :=
  let prices := recentData.map (fun d => d.close)
  (listMax prices - listMin prices) / listMin prices

/-- The composite institutional score: the four additive factors. -/
def instScore (recentData : List DailyRecord) : ℚ :=
  volumeAnomalyScore (instAvgRecentVolume recentData) (instAvgVolume recentData)
    + alignmentScore (instPercentChange recentData) (instVolumeChange recentData)
    + stabilityScore (instPriceRange recentData)
    + obvScore (computeOBV recentData) (instPercentChange recentData)

def instActivity (recentData : List DailyRecord) : String :=
  activityLabel (instScore recentData) (instPercentChange recentData)

/-- Per-symbol body of `fetchInstitutionalData`: skip under 30 records,
restrict to the last 30, and include the stock when
`score >= thresholds[0] || |percentChange| >= minPercentChange`. -/
def processInstSymbol (thresholds : List ℚ) (minPercentChange : ℚ) (symbol : String)
    (data : List DailyRecord) : Option InstStock :=
  if data.length < 30 then none
  else
    let recentData := data.drop (data.length - 30)
    let score := instScore recentData
    let percentChange := instPercentChange recentData
    if thresholds.getD 0 0 ≤ score ∨ minPercentChange ≤ |percentChange| then
      some ⟨symbol, symbol, score, percentChange / 100, instAvgRecentVolume recentData,
        instActivity recentData⟩
    else
      none

def instStocksData (thresholds : List ℚ) (minPercentChange : ℚ)
    (symbolData : List (String × List DailyRecord)) : List InstStock :=
  symbolData.filterMap (fun p => processInstSymbol thresholds minPercentChange p.1 p.2)

/-- `InstitutionalActivity.fetchInstitutionalData` (pure part): the grouped,
sorted per-symbol series go in; an empty result is an error, not a success. -/
def fetchInstitutionalData (thresholds : List ℚ) (minPercentChange : ℚ)
    (symbolData : List (String × List DailyRecord)) : Except String (List InstStock) :=
  let stocksData := instStocksData thresholds minPercentChange symbolData
  if 0 < stocksData.length then Except.ok stocksData
  else Except.error "No stocks found with institutional activity signals"

/-- The highest configured threshold the score meets (the source scans the
`thresholds` array from the top and breaks at the first hit). -/
def bucketFor (thresholds : List ℚ) (score : ℚ) : Option ℚ :=
  thresholds.reverse.find? (fun t => decide (t ≤ score))

/-- One iteration of `filterByThresholds`' forEach: skip the stock when
`stock.percentChange < minPercentChange / 100`, else append it to the
bucket of the highest threshold it meets (none ⇒ silently dropped). -/
def bucketStep (thresholds : List ℚ) (minPercentChange : ℚ)
    (result : List (ℚ × List InstStock)) (stock : InstStock) : List (ℚ × List InstStock) :=
  if stock.percentChange < minPercentChange / 100 then result
  else
    match bucketFor thresholds stock.score with
    | none => result
    | some t => result.map (fun p => if p.1 = t then (p.1, p.2 ++ [stock]) else p)

/-- `InstitutionalActivity.filterByThresholds`: buckets keyed by threshold,
initialized empty, filled in input order. -/
def filterByThresholds (thresholds : List ℚ) (minPercentChange : ℚ)
    (stocksData : List InstStock) : List (ℚ × List InstStock) :=
  stocksData.foldl (bucketStep thresholds minPercentChange)
    (thresholds.map (fun t => (t, [])))

/-- `InstitutionalActivity.process`: fetch, bucket, then persist
`{score, timestamp}` for every stock of `stocksData` (the inclusion-rule
survivors) via `updateInstitutionalStocks`. -/
def InstitutionalActivity.process (thresholds : List ℚ) (minPercentChange : ℚ)
    (symbolData : List (String × List DailyRecord)) (st : NotificationState) (now : ℤ) :
    Except String (List (ℚ × List InstStock) × NotificationState) :=
  match fetchInstitutionalData thresholds minPercentChange symbolData with
  | Except.error e => Except.error e
  | Except.ok stocksData =>
      let categorizedStocks := filterByThresholds thresholds minPercentChange stocksData
      let mapping := stocksData.foldl
        (fun acc stock => upsert acc stock.symbol (⟨stock.score, now⟩ : InstEntry)) []
      Except.ok (categorizedStocks, StateManager.updateInstitutionalStocks st mapping now)

/-- 30 flat days: close 100, volume 10. -/
def instFlatData : List DailyRecord := List.replicate 30 ⟨0, 100, 100, 100, 100, 10⟩

/-- 29 flat days at close 100, then one close at 103 (+3%). -/
def c4RiseData : List DailyRecord :=
  List.replicate 29 ⟨0, 100, 100, 100, 100, 10⟩ ++ [⟨29, 103, 103, 103, 103, 10⟩]

set_option maxHeartbeats 1000000 in
theorem instParts_flat :
    instAvgVolume instFlatData = 10 ∧ instAvgRecentVolume instFlatData = 10
    ∧ instPercentChange instFlatData = 0 ∧ instVolumeChange instFlatData = 1
    ∧ instPriceRange instFlatData = 0 ∧ computeOBV instFlatData = 0 := by
  refine ⟨?_, ?_, ?_, ?_, ?_, ?_⟩ <;>
  norm_num [instAvgVolume, instAvgRecentVolume, instPercentChange, instVolumeChange,
    instPriceRange, computeOBV, listMax, listMin, instFlatData, List.replicate,
    List.range_succ, max_def, min_def]

set_option maxHeartbeats 1000000 in
theorem instParts_rise :
    instAvgVolume c4RiseData = 10 ∧ instAvgRecentVolume c4RiseData = 10
    ∧ instPercentChange c4RiseData = 3 ∧ instVolumeChange c4RiseData = 1
    ∧ instPriceRange c4RiseData = 3 / 100 ∧ computeOBV c4RiseData = 10 := by
  refine ⟨?_, ?_, ?_, ?_, ?_, ?_⟩ <;>
  norm_num [instAvgVolume, instAvgRecentVolume, instPercentChange, instVolumeChange,
    instPriceRange, computeOBV, listMax, listMin, c4RiseData, List.replicate,
    List.range_succ, max_def, min_def]

theorem instScore_flat : instScore instFlatData = 1 / 5
    ∧ instActivity instFlatData = "Neutral" := by
  obtain ⟨h1, h2, h3, h4, h5, h6⟩ := instParts_flat
  have hs : instScore instFlatData = 1 / 5 := by
    rw [instScore, h1, h2, h3, h4, h5, h6]
    norm_num [volumeAnomalyScore, alignmentScore, stabilityScore, obvScore]
  exact ⟨hs, by rw [instActivity, hs, h3]; norm_num [activityLabel]⟩

theorem instScore_rise : instScore c4RiseData = 2 / 5
    ∧ instActivity c4RiseData = "Neutral" := by
  obtain ⟨h1, h2, h3, h4, h5, h6⟩ := instParts_rise
  have hs : instScore c4RiseData = 2 / 5 := by
    rw [instScore, h1, h2, h3, h4, h5, h6]
    norm_num [volumeAnomalyScore, alignmentScore, stabilityScore, obvScore]
  exact ⟨hs, by rw [instActivity, hs, h3]; norm_num [activityLabel]⟩

/-- The stock record the rising series produces under thresholds
`[0.5, 0.65, 0.8]`, `minPercentChange = 2`. -/
def c4Stock2 : InstStock := ⟨"SYM2", "SYM2", 2 / 5, 3 / 100, 10, "Neutral"⟩

theorem processInst_flat :
    processInstSymbol [1 / 2, 13 / 20, 4 / 5] 2 "SYM1" instFlatData = none := by
  have h := instScore_flat
  have hp := instParts_flat
  rw [processInstSymbol]
  rw [if_neg (by norm_num [instFlatData])]
  rw [show instFlatData.drop (instFlatData.length - 30) = instFlatData from by
    norm_num [instFlatData]]
  rw [if_neg]
  rw [h.1, hp.2.2.1]
  norm_num

theorem processInst_rise :
    processInstSymbol [1 / 2, 13 / 20, 4 / 5] 2 "SYM2" c4RiseData = some c4Stock2 := by
  have h := instScore_rise
  have hp := instParts_rise
  rw [processInstSymbol]
  rw [if_neg (by norm_num [c4RiseData])]
  rw [show c4RiseData.drop (c4RiseData.length - 30) = c4RiseData from by
    norm_num [c4RiseData]]
  rw [if_pos]
  · norm_num [c4Stock2, h.1, h.2, hp.2.2.1, hp.2.1]
  · rw [h.1, hp.2.2.1]
    norm_num

def c4Input : List (String × List DailyRecord) := [("SYM1", instFlatData), ("SYM2", c4RiseData)]

def c4Cat : List (ℚ × List InstStock) := [(1 / 2, []), (13 / 20, []), (4 / 5, [])]

def c4St2 : NotificationState := ⟨some 0, [("SYM2", ⟨2 / 5, 0⟩)], [], [], []⟩

theorem c4_process_eq :
    InstitutionalActivity.process [1 / 2, 13 / 20, 4 / 5] 2 c4Input initialState 0
      = Except.ok (c4Cat, c4St2) := by
  have hdata : instStocksData [1 / 2, 13 / 20, 4 / 5] 2 c4Input = [c4Stock2] := by
    rw [instStocksData, c4Input]
    rw [List.filterMap_cons, List.filterMap_cons, List.filterMap_nil]
    rw [show processInstSymbol [1 / 2, 13 / 20, 4 / 5] 2 ("SYM1", instFlatData).1
        ("SYM1", instFlatData).2 = none from processInst_flat]
    rw [show processInstSymbol [1 / 2, 13 / 20, 4 / 5] 2 ("SYM2", c4RiseData).1
        ("SYM2", c4RiseData).2 = some c4Stock2 from processInst_rise]
  rw [InstitutionalActivity.process, fetchInstitutionalData, hdata]
  norm_num [filterByThresholds, bucketStep, bucketFor, c4Stock2, upsert,
    StateManager.updateInstitutionalStocks, initialState, c4Cat, c4St2, List.find?]

/-- C4 counterexample: with thresholds `[0.5, 0.65, 0.8]` and
`minPercentChange = 2`, symbol SYM1 has exactly 30 records (it is scanned),
`process` succeeds, yet the persisted `institutionalStocks` state has no
entry for SYM1 — only inclusion-rule survivors are persisted, not every
scanned symbol. -/
theorem C4_counterexample :
    instFlatData.length = 30
    ∧ c4Input = [("SYM1", instFlatData), ("SYM2", c4RiseData)]
    ∧ InstitutionalActivity.process [1 / 2, 13 / 20, 4 / 5] 2 c4Input initialState 0
        = Except.ok (c4Cat, c4St2)
    ∧ lookupS c4St2.institutionalStocks "SYM1" = none := by
  refine ⟨by norm_num [instFlatData], rfl, c4_process_eq, ?_⟩
  rw [show c4St2.institutionalStocks = [("SYM2", ⟨2 / 5, 0⟩)] from rfl, lookupS_cons]
  rw [if_neg (by simp)]
  rfl

theorem mem_bucketStep (thresholds : List ℚ) (minPC : ℚ)
    (result : List (ℚ × List InstStock)) (stock : InstStock) (t : ℚ)
    (b : List InstStock) (s : InstStock)
    (hb : (t, b) ∈ bucketStep thresholds minPC result stock) (hs : s ∈ b) :
    (∃ b₀, (t, b₀) ∈ result ∧ s ∈ b₀)
      ∨ (s = stock ∧ ¬ (stock.percentChange < minPC / 100)) := by
  rw [bucketStep] at hb
  split at hb
  · exact Or.inl ⟨b, hb, hs⟩
  · rename_i hgate
    split at hb
    · exact Or.inl ⟨b, hb, hs⟩
    · rename_i t' hfind
      rw [List.mem_map] at hb
      obtain ⟨⟨tp, bp⟩, hp, heq⟩ := hb
      by_cases htp : tp = t'
      · rw [show (if (tp, bp).1 = t' then ((tp, bp).1, (tp, bp).2 ++ [stock]) else (tp, bp))
            = (tp, bp ++ [stock]) from by rw [if_pos htp]] at heq
        injection heq with h1 h2
        subst h1
        rw [← h2] at hs
        rcases List.mem_append.mp hs with h | h
        · exact Or.inl ⟨bp, hp, h⟩
        · rw [List.mem_singleton] at h
          exact Or.inr ⟨h, hgate⟩
      · rw [show (if (tp, bp).1 = t' then ((tp, bp).1, (tp, bp).2 ++ [stock]) else (tp, bp))
            = (tp, bp) from by rw [if_neg htp]] at heq
        rw [heq] at hp
        exact Or.inl ⟨b, hp, hs⟩

theorem mem_bucket_foldl (thresholds : List ℚ) (minPC : ℚ) :
    ∀ (stocks : List InstStock) (init : List (ℚ × List InstStock)) (t : ℚ)
      (bucket : List InstStock) (s : InstStock),
      (t, bucket) ∈ stocks.foldl (bucketStep thresholds minPC) init → s ∈ bucket →
      (∃ b₀, (t, b₀) ∈ init ∧ s ∈ b₀)
        ∨ (s ∈ stocks ∧ ¬ (s.percentChange < minPC / 100)) := by
  intro stocks
  induction stocks with
  | nil => intro init t bucket s hb hs; exact Or.inl ⟨bucket, hb, hs⟩
  | cons stock rest ih =>
    intro init t bucket s hb hs
    rw [List.foldl_cons] at hb
    rcases ih _ t bucket s hb hs with ⟨b₀, hb₀, hs₀⟩ | ⟨hmem, hgate⟩
    · rcases mem_bucketStep thresholds minPC init stock t b₀ s hb₀ hs₀ with h | ⟨heq, hgate⟩
      · exact Or.inl h
      · subst heq
        exact Or.inr ⟨List.mem_cons_self s rest, hgate⟩
    · exact Or.inr ⟨List.mem_cons_of_mem _ hmem, hgate⟩

theorem mem_bucket_of_filterByThresholds (thresholds : List ℚ) (minPC : ℚ)
    (stocksData : List InstStock) (t : ℚ) (bucket : List InstStock) (s : InstStock)
    (hb : (t, bucket) ∈ filterByThresholds thresholds minPC stocksData) (hs : s ∈ bucket) :
    s ∈ stocksData ∧ ¬ (s.percentChange < minPC / 100) := by
  rcases mem_bucket_foldl thresholds minPC stocksData (thresholds.map (fun t => (t, [])))
      t bucket s hb hs with ⟨b₀, hb₀, hs₀⟩ | h
  · rw [List.mem_map] at hb₀
    obtain ⟨t', _, heq⟩ := hb₀
    injection heq with h1 h2
    rw [← h2] at hs₀
    exact absurd hs₀ (List.not_mem_nil s)
  · exact h

theorem instStock_decreasing_neg (thresholds : List ℚ) (minPC : ℚ)
    (symbolData : List (String × List DailyRecord)) (s : InstStock)
    (hs : s ∈ instStocksData thresholds minPC symbolData)
    (hdec : s.activity = "Decreasing") : s.percentChange < 0 := by
  rw [instStocksData, List.mem_filterMap] at hs
  obtain ⟨⟨sym, data⟩, hmem, hsome⟩ := hs
  simp only [processInstSymbol] at hsome
  split at hsome
  · exact absurd hsome (by simp)
  · split at hsome
    · injection hsome with heq
      have hact : s.activity = instActivity (data.drop (data.length - 30)) := by
        rw [← heq]
      have hpc : s.percentChange
          = instPercentChange (data.drop (data.length - 30)) / 100 := by
        rw [← heq]
      rw [hact, instActivity, activityLabel] at hdec
      rw [hpc]
      split_ifs at hdec with h1 h2 h3
      · exact absurd hdec (by decide)
      · exact div_neg_of_neg_of_pos h2.2 (by norm_num)
      · exact absurd hdec (by decide)
      · exact absurd hdec (by decide)
    · exact absurd hsome (by simp)

/-- C10: with a non-negative `minPercentChange`, no bucket of
`filterByThresholds` over the detector's own `stocksData` contains a stock
with negative `percentChange` — the gate compares the signed value — and
hence no bucket contains a stock labelled `Decreasing` (that label requires
a negative `percentChange`). -/
theorem C10_institutional_buckets_nonneg (thresholds : List ℚ) (minPC : ℚ)
    (symbolData : List (String × List DailyRecord)) (t : ℚ) (bucket : List InstStock)
    (s : InstStock) (hmin : 0 ≤ minPC)
    (hb : (t, bucket) ∈ filterByThresholds thresholds minPC
      (instStocksData thresholds minPC symbolData))
    (hs : s ∈ bucket) :
    ¬ (s.percentChange < 0) ∧ s.activity ≠ "Decreasing" := by
  obtain ⟨hmem, hgate⟩ :=
    mem_bucket_of_filterByThresholds thresholds minPC _ t bucket s hb hs
  have hn : ¬ (s.percentChange < 0) := by
    intro h
    exact hgate (lt_of_lt_of_le h (by positivity))
  exact ⟨hn, fun hdec =>
    hn (instStock_decreasing_neg thresholds minPC symbolData s hmem hdec)⟩

def c10Stock : InstStock := ⟨"SYM", "SYM", 1 / 5, 0, 10, "Neutral"⟩

theorem processInst_flat0 : processInstSymbol [0] 0 "SYM" instFlatData = some c10Stock := by
  have h := instScore_flat
  have hp := instParts_flat
  rw [processInstSymbol]
  rw [if_neg (by norm_num [instFlatData])]
  rw [show instFlatData.drop (instFlatData.length - 30) = instFlatData from by
    norm_num [instFlatData]]
  rw [if_pos]
  · norm_num [c10Stock, h.1, h.2, hp.2.1, hp.2.2.1]
  · rw [h.1]
    norm_num

theorem c10_bucket_eq :
    filterByThresholds [0] 0 (instStocksData [0] 0 [("SYM", instFlatData)])
      = [(0, [c10Stock])] := by
  have hdata : instStocksData [0] 0 [("SYM", instFlatData)] = [c10Stock] := by
    rw [instStocksData, List.filterMap_cons, List.filterMap_nil]
    rw [show processInstSymbol [0] 0 ("SYM", instFlatData).1 ("SYM", instFlatData).2
        = some c10Stock from processInst_flat0]
  rw [hdata]
  norm_num [filterByThresholds, bucketStep, bucketFor, c10Stock, List.find?]

/-- Witness for C10: the flat 30-day series with thresholds `[0]` and
`minPercentChange = 0` puts one stock (score 0.2, percentChange 0,
`Neutral`) in the bucket of threshold 0; applying the theorem to it. -/
theorem C10_institutional_buckets_nonneg_witness :
    ¬ (c10Stock.percentChange < 0) ∧ c10Stock.activity ≠ "Decreasing" :=
  C10_institutional_buckets_nonneg [0] 0 [("SYM", instFlatData)] 0 [c10Stock] c10Stock
    (le_refl 0) (by rw [c10_bucket_eq]; exact List.mem_singleton.mpr rfl)
    (List.mem_singleton.mpr rfl)

theorem lookupS_instMapping_isSome (now : ℤ) (stocks : List InstStock) (sym : String) :
    (lookupS (stocks.foldl
        (fun acc stock => upsert acc stock.symbol (⟨stock.score, now⟩ : InstEntry)) [])
      sym).isSome = stocks.any (fun s => s.symbol = sym) := by
  rw [lookupS_foldl_upsert_isSome (fun s => s.symbol)
    (fun s => (⟨s.score, now⟩ : InstEntry)) sym stocks []]
  rfl

/-- C4 (amended): after a successful `process`, the persisted
`institutionalStocks` slice contains exactly the symbols of `stocksData` —
the stocks passing the inclusion rule `score ≥ thresholds[0] ∨
|percentChange| ≥ minPercentChange` — which is a superset of the bucketed
notification output (every bucketed stock has a persisted entry), but NOT
every scanned symbol with ≥ 30 records: a symbol failing both inclusion
tests is scanned yet absent from the persisted state. -/
theorem C4_institutional_state_included (thresholds : List ℚ) (minPC : ℚ)
    (symbolData : List (String × List DailyRecord)) (st : NotificationState) (now : ℤ)
    (cat : List (ℚ × List InstStock)) (st2 : NotificationState)
    (hok : InstitutionalActivity.process thresholds minPC symbolData st now
      = Except.ok (cat, st2)) :
    (∀ sym : String, (lookupS st2.institutionalStocks sym).isSome
        = (instStocksData thresholds minPC symbolData).any (fun s => s.symbol = sym))
    ∧ (∀ (t : ℚ) (bucket : List InstStock) (s : InstStock),
        (t, bucket) ∈ cat → s ∈ bucket →
        (lookupS st2.institutionalStocks s.symbol).isSome = true) := by
  rw [InstitutionalActivity.process, fetchInstitutionalData] at hok
  by_cases h0 : 0 < (instStocksData thresholds minPC symbolData).length
  · rw [if_pos h0] at hok
    simp only at hok
    injection hok with hpair
    injection hpair with hcat hst2
    have hslice : st2.institutionalStocks
        = (instStocksData thresholds minPC symbolData).foldl
            (fun acc stock => upsert acc stock.symbol (⟨stock.score, now⟩ : InstEntry))
            [] := by
      rw [← hst2]
      rfl
    constructor
    · intro sym
      rw [hslice, lookupS_instMapping_isSome]
    · intro t bucket s hb hs
      rw [← hcat] at hb
      obtain ⟨hmem, _⟩ :=
        mem_bucket_of_filterByThresholds thresholds minPC _ t bucket s hb hs
      rw [hslice, lookupS_instMapping_isSome, List.any_eq_true]
      exact ⟨s, hmem, by simp⟩
  · rw [if_neg h0] at hok
    exact absurd hok (by simp)

/-- Witness for C4: the amended theorem applied to the concrete run of
`c4_process_eq` — the included symbol SYM2 is persisted, the excluded (but
scanned) SYM1 is not. -/
theorem C4_institutional_state_included_witness :
    (lookupS c4St2.institutionalStocks "SYM1").isSome
      = (instStocksData [1 / 2, 13 / 20, 4 / 5] 2 c4Input).any (fun s => s.symbol = "SYM1")
    ∧ (lookupS c4St2.institutionalStocks "SYM2").isSome
      = (instStocksData [1 / 2, 13 / 20, 4 / 5] 2 c4Input).any
          (fun s => s.symbol = "SYM2") := by
  have h := C4_institutional_state_included [1 / 2, 13 / 20, 4 / 5] 2 c4Input
    initialState 0 c4Cat c4St2 c4_process_eq
  exact ⟨h.1 "SYM1", h.1 "SYM2"⟩

/-- C7: the institutional composite score of any 30-record window with
positive closes and non-negative volumes lies in `[0, 1]`; and on 30 flat
days (constant close, constant volume) the factors are price-stability 0.2,
volume-anomaly 0, alignment 0, OBV 0, total score exactly 0.2, with
activity label `Neutral`. -/
theorem C7_institutional_score_bounds :
    (∀ recentData : List DailyRecord, recentData.length = 30 →
      (∀ d ∈ recentData, 0 < d.close) → (∀ d ∈ recentData, 0 ≤ d.volume) →
      0 ≤ instScore recentData ∧ instScore recentData ≤ 1)
    ∧ volumeAnomalyScore (instAvgRecentVolume instFlatData) (instAvgVolume instFlatData) = 0
    ∧ alignmentScore (instPercentChange instFlatData) (instVolumeChange instFlatData) = 0
    ∧ stabilityScore (instPriceRange instFlatData) = 1 / 5
    ∧ obvScore (computeOBV instFlatData) (instPercentChange instFlatData) = 0
    ∧ instScore instFlatData = 1 / 5 ∧ instActivity instFlatData = "Neutral" := by
  constructor
  · intro recentData _ _ _
    have h1 : 0 ≤ volumeAnomalyScore (instAvgRecentVolume recentData)
          (instAvgVolume recentData)
        ∧ volumeAnomalyScore (instAvgRecentVolume recentData)
            (instAvgVolume recentData) ≤ 3 / 10 := by
      unfold volumeAnomalyScore
      split_ifs <;> norm_num
    have h2 : 0 ≤ alignmentScore (instPercentChange recentData)
          (instVolumeChange recentData)
        ∧ alignmentScore (instPercentChange recentData)
            (instVolumeChange recentData) ≤ 3 / 10 := by
      unfold alignmentScore
      split_ifs <;> norm_num
    have h3 : 0 ≤ stabilityScore (instPriceRange recentData)
        ∧ stabilityScore (instPriceRange recentData) ≤ 2 / 10 := by
      unfold stabilityScore
      split_ifs <;> norm_num
    have h4 : 0 ≤ obvScore (computeOBV recentData) (instPercentChange recentData)
        ∧ obvScore (computeOBV recentData) (instPercentChange recentData) ≤ 2 / 10 := by
      unfold obvScore
      split_ifs <;> norm_num
    unfold instScore
    constructor
    · linarith [h1.1, h2.1, h3.1, h4.1]
    · linarith [h1.2, h2.2, h3.2, h4.2]
  · obtain ⟨p1, p2, p3, p4, p5, p6⟩ := instParts_flat
    refine ⟨?_, ?_, ?_, ?_, instScore_flat.1, instScore_flat.2⟩
    · rw [p1, p2]
      norm_num [volumeAnomalyScore]
    · rw [p3, p4]
      norm_num [alignmentScore]
    · rw [p5]
      norm_num [stabilityScore]
    · rw [p6, p3]
      norm_num [obvScore]

/-- Witness for C7: the bounds instantiated on the concrete flat window. -/
theorem C7_institutional_score_bounds_witness :
    0 ≤ instScore instFlatData ∧ instScore instFlatData ≤ 1 :=
  C7_institutional_score_bounds.1 instFlatData (by norm_num [instFlatData])
    (fun d hd => by
      rw [List.eq_of_mem_replicate (show d ∈ List.replicate 30 _ from hd)]
      norm_num)
    (fun d hd => by
      rw [List.eq_of_mem_replicate (show d ∈ List.replicate 30 _ from hd)]
      norm_num)

/-! ## RSI/Support detector (rsiSupport.js, `RsiSupport`) -/

/-- Sector from symbol substrings (rsiSupport.js lines 92–96). -/
def rsiSectorOf (symbol : String) : String :=
  if containsSub symbol "BANK" then "Banking"
  else if containsSub symbol "HYDRO" then "Hydropower"
  else if containsSub symbol "LIFE" then "Insurance"
  else if containsSub symbol "MICRO" then "Microfinance"
  else "Other"

structure RsiStock where
  symbol : String
  name : String
  currentRSI : ℚ
  supportLevel : ℚ
  lastPrice : ℚ
  percentFromSupport : ℚ
  volume : ℚ
  sector : String
  deriving DecidableEq

/-- The nearest-support scan: returns `(nearestSupport, percentFromSupport)`
starting from `(0, 100)`, keeping the support below `lastPrice` of minimal
percent distance. -/
def nearestSupport (supportLevels : List ℚ) (lastPrice : ℚ) : ℚ × ℚ :=
  supportLevels.foldl (fun acc support =>
    if support < lastPrice then
      let distance := (lastPrice - support) / support * 100
      if distance < acc.2 then (support, distance) else acc
    else acc) (0, 100)

/-- Per-symbol body of `fetchRsiSupportData`: skip under 15 records, compute
RSI(14) and support levels over the trailing ≤120 records, and include the
stock when `currentRSI ≤ maxRSI ∧ percentFromSupport ≤ maxDistance ∧
nearestSupport > 0`. -/
def processRsiSymbol (maxRSI maxDistanceFromSupport : ℚ) (symbol : String)
    (data : List DailyRecord) : Option RsiStock :=
  if data.length < 15 then none
  else
    let lastPrice := (data.getD (data.length - 1) default).close
    let period := min 120 data.length
    let recentData := data.drop (data.length - period)
    let ns := nearestSupport (findSupportLevels recentData) lastPrice
    let currentRSI := detectorCurrentRSI data
    if currentRSI ≤ maxRSI ∧ ns.2 ≤ maxDistanceFromSupport ∧ 0 < ns.1 then
      some ⟨symbol, symbol, currentRSI, ns.1, lastPrice, ns.2 / 100,
        (data.getD (data.length - 1) default).volume, rsiSectorOf symbol⟩
    else
      none

def rsiStocksData (maxRSI maxDistanceFromSupport : ℚ)
    (symbolData : List (String × List DailyRecord)) : List RsiStock :=
  symbolData.filterMap (fun p => processRsiSymbol maxRSI maxDistanceFromSupport p.1 p.2)

/-- `RsiSupport.fetchRsiSupportData` (pure part): an empty result throws
`'No RSI support stocks found in data'` rather than returning `[]`. -/
def fetchRsiSupportData (maxRSI maxDistanceFromSupport : ℚ)
    (symbolData : List (String × List DailyRecord)) : Except String (List RsiStock) :=
  let stocksData := rsiStocksData maxRSI maxDistanceFromSupport symbolData
  if 0 < stocksData.length then Except.ok stocksData
  else Except.error "No RSI support stocks found in data"

/-- `RsiSupport.filterBySupport`. -/
def filterBySupport (maxRSI maxDistanceFromSupport : ℚ) (stocksData : List RsiStock) :
    List RsiStock :=
  stocksData.filter (fun stock =>
    decide (stock.currentRSI ≤ maxRSI)
      && decide (stock.percentFromSupport ≤ maxDistanceFromSupport / 100))

/-- The method name `RsiSupport.process` invokes on the state manager
(rsiSupport.js line 255) — not the name `StateManager` defines. -/
def rsiUpdateCallName : String := "updateRSIStocks"

/-- Dynamic dispatch of `stateManager[name](mapping)`: the RSI-payload
update exists only as `updateRSISupportStocks`; a name the class does not
define raises `TypeError: ... is not a function`. -/
def callRsiStateUpdate (st : NotificationState) (name : String)
    (mapping : List (String × RsiEntry)) (now : ℤ) : Except String NotificationState :=
  if name = "updateRSISupportStocks" then
    Except.ok (StateManager.updateRSISupportStocks st mapping now)
  else if StateManager.methodNames.contains name then
    Except.ok st
  else
    Except.error ("TypeError: stateManager." ++ name ++ " is not a function")

/-- `RsiSupport.process`: fetch, filter, then call
`stateManager.updateRSIStocks(...)` with the per-symbol
`{rsi, supportLevel, timestamp}` mapping. -/
def RsiSupport.process (maxRSI maxDistanceFromSupport : ℚ)
    (symbolData : List (String × List DailyRecord)) (st : NotificationState) (now : ℤ) :
    Except String (List RsiStock × NotificationState) :=
  match fetchRsiSupportData maxRSI maxDistanceFromSupport symbolData with
  | Except.error e => Except.error e
  | Except.ok stocksData =>
      let filteredStocks := filterBySupport maxRSI maxDistanceFromSupport stocksData
      let mapping := filteredStocks.foldl (fun acc stock =>
        upsert acc stock.symbol
          (⟨stock.currentRSI, stock.supportLevel, now⟩ : RsiEntry)) []
      match callRsiStateUpdate st rsiUpdateCallName mapping now with
      | Except.error e => Except.error e
      | Except.ok st2 => Except.ok (filteredStocks, st2)

/-- C1 (the code, not the claim): `RsiSupport.process` can never complete —
the call target `updateRSIStocks` is not among the methods `StateManager`
defines (it defines `updateRSISupportStocks`), so every run that reaches the
state update throws a TypeError and the RSI slice is never written. -/
theorem C1_rsi_process_never_updates (maxRSI maxDistanceFromSupport : ℚ)
    (symbolData : List (String × List DailyRecord)) (st : NotificationState) (now : ℤ) :
    exceptIsOk (RsiSupport.process maxRSI maxDistanceFromSupport symbolData st now) = false
    ∧ StateManager.methodNames.contains rsiUpdateCallName = false := by
  constructor
  · rw [RsiSupport.process]
    cases h : fetchRsiSupportData maxRSI maxDistanceFromSupport symbolData with
    | error e => rfl
    | ok stocksData =>
      have hcall : ∀ mapping : List (String × RsiEntry),
          callRsiStateUpdate st rsiUpdateCallName mapping now
            = Except.error "TypeError: stateManager.updateRSIStocks is not a function" := by
        intro mapping
        rw [callRsiStateUpdate]
        rw [if_neg (by decide), if_neg (by decide)]
        rfl
      simp only [hcall]
      rfl
  · decide

/-! ## Weekly heatmap aggregator (weeklyHeatmap.js, `WeeklyHeatmap`) -/

structure HeatmapEntry where
  symbol : String
  name : String
  close : ℚ
  percentChange : ℚ
  volume : ℚ
  sector : String
  deriving DecidableEq

/-- The fixed symbol-prefix → sector table (weeklyHeatmap.js lines 45–54). -/
def sectorMapping : List (String × String) :=
  [("BANK", "Banking"), ("FINANCE", "Finance"), ("HYDRO", "Hydropower"),
   ("LIFE", "Insurance"), ("MICRO", "Microfinance"), ("HOTEL", "Tourism"),
   ("DEV", "Development Bank")]

/-- First key of `sectorMapping` contained in the symbol, else `Other`. -/
def heatSectorOf (symbol : String) : String :=
  match sectorMapping.find? (fun p => containsSub symbol p.1) with
  | some p => p.2
  | none => "Other"

/-- Per-symbol body of `fetchHeatmapData`: skip under 5 records, use the
last 5; the volume sum skips falsy (zero) volumes in the source, which sums
the same values. Include when `avgVolume ≥ minVolume`. -/
def processHeatSymbol (minVolume : ℚ) (symbol : String) (data : List DailyRecord) :
    Option HeatmapEntry :=
  if data.length < 5 then none
  else
    let recentData := data.drop (data.length - 5)
    let totalVolume := (recentData.map (fun d => d.volume)).sum
    let startPrice := (recentData.getD 0 default).close
    let endPrice := (recentData.getD (recentData.length - 1) default).close
    let percentChange := (endPrice - startPrice) / startPrice * 100
    let avgVolume := totalVolume / (recentData.length : ℚ)
    if minVolume ≤ avgVolume then
      some ⟨symbol, symbol, endPrice, percentChange, avgVolume, heatSectorOf symbol⟩
    else
      none

def heatmapEntries (minVolume : ℚ) (symbolData : List (String × List DailyRecord)) :
    List HeatmapEntry :=
  symbolData.filterMap (fun p => processHeatSymbol minVolume p.1 p.2)

/-- Keys in first-seen order, as JavaScript object insertion preserves. -/
def firstSeen (l : List String) : List String :=
  l.foldl (fun acc x => if x ∈ acc then acc else acc ++ [x]) []

/-- Stable insertion placing `x` before the first strictly smaller volume:
the effect of the source's `sort((a, b) => b.volume - a.volume)`. -/
def insertByVolume (x : HeatmapEntry) : List HeatmapEntry → List HeatmapEntry
  | [] => [x]
  | y :: ys => if y.volume < x.volume then x :: y :: ys else y :: insertByVolume x ys

def sortByVolumeDesc (l : List HeatmapEntry) : List HeatmapEntry :=
  l.foldr insertByVolume []

/-- The sector → top-N mapping `fetchHeatmapData` builds. -/
def heatmapSectorsData (minVolume : ℚ) (topNbyVolume : ℕ)
    (symbolData : List (String × List DailyRecord)) : List (String × List HeatmapEntry) :=
  let entries := heatmapEntries minVolume symbolData
  (firstSeen (entries.map (fun e => e.sector))).map (fun sec =>
    (sec, (sortByVolumeDesc (entries.filter (fun e => decide (e.sector = sec)))).take
      topNbyVolume))

/-- `WeeklyHeatmap.fetchHeatmapData` (pure part): an empty sector map throws
`'No heatmap data found in processed data'` rather than returning `{}`. -/
def fetchHeatmapData (minVolume : ℚ) (topNbyVolume : ℕ)
    (symbolData : List (String × List DailyRecord)) :
    Except String (List (String × List HeatmapEntry)) :=
  let sectorsData := heatmapSectorsData minVolume topNbyVolume symbolData
  if 0 < sectorsData.length then Except.ok sectorsData
  else Except.error "No heatmap data found in processed data"

/-- C8: both the RSI/Support detector and the heatmap aggregator signal an
error when they find zero qualifying entries: a run producing no RSI stocks
throws `'No RSI support stocks found in data'`, and a run producing no
heatmap entries (hence no sector) throws `'No heatmap data found in
processed data'` — an empty outcome is never a silent empty success. -/
theorem C8_empty_result_is_error (maxRSI maxDistanceFromSupport : ℚ)
    (symbolData : List (String × List DailyRecord)) (minVolume : ℚ) (topNbyVolume : ℕ)
    (hSymbolData : List (String × List DailyRecord))
    (h1 : rsiStocksData maxRSI maxDistanceFromSupport symbolData = [])
    (h2 : heatmapEntries minVolume hSymbolData = []) :
    fetchRsiSupportData maxRSI maxDistanceFromSupport symbolData
      = Except.error "No RSI support stocks found in data"
    ∧ fetchHeatmapData minVolume topNbyVolume hSymbolData
      = Except.error "No heatmap data found in processed data" := by
  constructor
  · simp only [fetchRsiSupportData, h1]
    rfl
  · simp only [fetchHeatmapData, heatmapSectorsData, h2]
    rfl

/-- Witness for C8: both fetchers on an empty symbol map. -/
theorem C8_empty_result_is_error_witness :
    fetchRsiSupportData 40 5 [] = Except.error "No RSI support stocks found in data"
    ∧ fetchHeatmapData 5000 3 [] = Except.error "No heatmap data found in processed data" :=
  C8_empty_result_is_error 40 5 [] 5000 3 [] rfl rfl
